import Mathlib

/-!
Verification development for the `rust-server-hook` webhook dispatcher.

The repository is a small hyper-based HTTP server (`src/main.rs`,
`src/github.rs`).  This file gives a shallow embedding of its request
handler: JSON values as produced by `serde_json::Value` (object entries
kept sorted, mirroring the `BTreeMap` representation), the
`serde_json` text parser and serializers restricted to the JSON
fragment the webhook payloads use (strings, booleans, integers, arrays,
objects; floating-point literals are outside the fragment any theorem
below evaluates), the GitHub header extraction, the typed `PushEvent`
deserializer, and the dispatch logic of `handle` / `handle_push_event`.
-/

/-- JSON values, mirroring `serde_json::Value`.  Object entries are kept
sorted by key with no duplicates, as in the default `BTreeMap`-backed
`serde_json::Map`. -/
inductive Json where
  | null : Json
  | bool : Bool → Json
  | num : Int → Json
  | str : String → Json
  | arr : List Json → Json
  | obj : List (String × Json) → Json

/-- Lexicographic comparison of keys by Unicode scalar value, the
order `Ord for String` gives in Rust (byte order on UTF-8 agrees with
scalar order). -/
def charsLt : List Char → List Char → Bool
  | [], [] => false
  | [], _ :: _ => true
  | _ :: _, [] => false
  | a :: as, b :: bs =>
    if a.toNat < b.toNat then true
    else if b.toNat < a.toNat then false
    else charsLt as bs

def keyLt (a b : String) : Bool := charsLt a.data b.data

/-- Insertion into a sorted association list, replacing an existing
binding: the `BTreeMap::insert` behaviour used by the object parser. -/
def insertSorted (k : String) (v : Json) : List (String × Json) → List (String × Json)
  | [] => [(k, v)]
  | (k', v') :: rest =>
    if keyLt k k' then (k, v) :: (k', v') :: rest
    else if k = k' then (k, v) :: rest
    else (k', v') :: insertSorted k v rest

def hexDigitChar (n : Nat) : Char :=
  if n < 10 then Char.ofNat (48 + n) else Char.ofNat (87 + n)

/-- String escaping as performed by `serde_json`'s serializer: quote,
backslash and control characters are escaped, everything else passes
through. -/
def escapeJsonChar (c : Char) : String :=
  if c = '"' then "\\\""
  else if c = '\\' then "\\\\"
  else if c = '\x08' then "\\b"
  else if c = '\x09' then "\\t"
  else if c = '\x0a' then "\\n"
  else if c = '\x0c' then "\\f"
  else if c = '\x0d' then "\\r"
  else if c.toNat < 32 then
    "\\u00" ++ String.mk [hexDigitChar (c.toNat / 16), hexDigitChar (c.toNat % 16)]
  else String.singleton c

def escapeJson (s : String) : String :=
  s.data.foldl (fun a c => a ++ escapeJsonChar c) ""

def quoteJson (s : String) : String := "\"" ++ escapeJson s ++ "\""

mutual

/-- Compact serialization: `serde_json::to_vec` / `to_string`. -/
def renderCompact : Json → String
  | .null => "null"
  | .bool true => "true"
  | .bool false => "false"
  | .num n => toString n
  | .str s => quoteJson s
  | .arr xs => "[" ++ renderCompactArr xs ++ "]"
  | .obj kvs => "\x7b" ++ renderCompactObj kvs ++ "\x7d"

def renderCompactArr : List Json → String
  | [] => ""
  | [x] => renderCompact x
  | x :: y :: rest => renderCompact x ++ "," ++ renderCompactArr (y :: rest)

def renderCompactObj : List (String × Json) → String
  | [] => ""
  | [(k, v)] => quoteJson k ++ ":" ++ renderCompact v
  | (k, v) :: p :: rest =>
    quoteJson k ++ ":" ++ renderCompact v ++ "," ++ renderCompactObj (p :: rest)

end

def indentStr (d : Nat) : String := String.mk (List.replicate (2 * d) ' ')

mutual

/-- Pretty serialization with two-space indentation:
`serde_json::to_string_pretty`'s `PrettyFormatter`. -/
def renderPretty : Nat → Json → String
  | _, .null => "null"
  | _, .bool true => "true"
  | _, .bool false => "false"
  | _, .num n => toString n
  | _, .str s => quoteJson s
  | _, .arr [] => "[]"
  | d, .arr (x :: xs) =>
    "[\n" ++ indentStr (d + 1) ++ renderPretty (d + 1) x ++
      renderPrettyArr (d + 1) xs ++ "\n" ++ indentStr d ++ "]"
  | _, .obj [] => "\x7b\x7d"
  | d, .obj ((k, v) :: kvs) =>
    "\x7b\n" ++ indentStr (d + 1) ++ quoteJson k ++ ": " ++ renderPretty (d + 1) v ++
      renderPrettyObj (d + 1) kvs ++ "\n" ++ indentStr d ++ "\x7d"

def renderPrettyArr : Nat → List Json → String
  | _, [] => ""
  | d, x :: xs => ",\n" ++ indentStr d ++ renderPretty d x ++ renderPrettyArr d xs

def renderPrettyObj : Nat → List (String × Json) → String
  | _, [] => ""
  | d, (k, v) :: kvs =>
    ",\n" ++ indentStr d ++ quoteJson k ++ ": " ++ renderPretty d v ++ renderPrettyObj d kvs

end

/-- Model of `serde_json::to_string_pretty`. -/
def to_string_pretty (v : Json) : String := renderPretty 0 v

/-! ## JSON text parsing (`serde_json::from_slice`) -/

def isJsonWs (c : Char) : Bool := c = ' ' || c = '\t' || c = '\n' || c = '\r'

def skipWs : List Char → List Char
  | [] => []
  | c :: rest => if isJsonWs c then skipWs rest else c :: rest

def isDigitCh (c : Char) : Bool := '0' ≤ c && c ≤ '9'

def takeDigits : List Char → List Char × List Char
  | [] => ([], [])
  | c :: rest =>
    if isDigitCh c then
      let p := takeDigits rest
      (c :: p.fst, p.snd)
    else ([], c :: rest)

def digitsToNat (ds : List Char) : Nat :=
  ds.foldl (fun a c => a * 10 + (c.toNat - 48)) 0

def hexVal (c : Char) : Option Nat :=
  if '0' ≤ c && c ≤ '9' then some (c.toNat - 48)
  else if 'a' ≤ c && c ≤ 'f' then some (c.toNat - 87)
  else if 'A' ≤ c && c ≤ 'F' then some (c.toNat - 55)
  else none

/-- Body of a JSON string literal, after the opening quote, consumed
character by character into the accumulator (kept reversed); returns
the decoded characters and the remaining input.  Unpaired surrogate
escapes are rejected (the paired-surrogate recombination of
`serde_json` is not needed by any theorem below and is modelled as the
error case). -/
def parseStringAux (acc : List Char) : List Char → Except String (List Char × List Char)
  | [] => .error "EOF while parsing a string"
  | '"' :: rest => .ok (acc.reverse, rest)
  | '\\' :: rest =>
    match rest with
    | [] => .error "EOF while parsing a string"
    | e :: rest2 =>
      if e = '"' ∨ e = '\\' ∨ e = '/' then parseStringAux (e :: acc) rest2
      else if e = 'b' then parseStringAux ('\x08' :: acc) rest2
      else if e = 'f' then parseStringAux ('\x0c' :: acc) rest2
      else if e = 'n' then parseStringAux ('\n' :: acc) rest2
      else if e = 'r' then parseStringAux ('\r' :: acc) rest2
      else if e = 't' then parseStringAux ('\t' :: acc) rest2
      else if e = 'u' then
        match rest2 with
        | h1 :: h2 :: h3 :: h4 :: rest3 =>
          match hexVal h1, hexVal h2, hexVal h3, hexVal h4 with
          | some a, some b, some c, some d =>
            let code := a * 4096 + b * 256 + c * 16 + d
            if 0xD800 ≤ code ∧ code ≤ 0xDFFF then
              .error "unexpected surrogate in unicode escape"
            else parseStringAux (Char.ofNat code :: acc) rest3
          | _, _, _, _ => .error "invalid unicode escape"
        | _ => .error "EOF while parsing a string"
      else .error "invalid escape"
  | c :: rest =>
    if c.toNat < 32 then .error "control character in string"
    else parseStringAux (c :: acc) rest

def parseStringRest : List Char → Except String (List Char × List Char) :=
  parseStringAux []

/-- Integer literals.  Fractional and exponent parts are outside the
modelled fragment (no webhook-payload theorem below involves them). -/
def parseNumber (cs : List Char) : Except String (Json × List Char) :=
  let p := match cs with
    | '-' :: t => (true, t)
    | _ => (false, cs)
  match takeDigits p.snd with
  | ([], _) => .error "invalid number"
  | (ds, rest) =>
    if ds.length > 1 ∧ ds.headD '0' = '0' then .error "invalid number"
    else
      let n : Int := Int.ofNat (digitsToNat ds)
      .ok (Json.num (if p.fst then -n else n), rest)

def expectLit : List Char → List Char → Option (List Char)
  | [], cs => some cs
  | _ :: _, [] => none
  | l :: lt, c :: ct => if c = l then expectLit lt ct else none

mutual

/-- Recursive-descent JSON value parser, fuelled for termination; the
fuel chosen by `parseJsonText` is large enough for any input. -/
def parseValue : Nat → List Char → Except String (Json × List Char)
  | 0, _ => .error "recursion limit exceeded"
  | fuel + 1, cs =>
    match skipWs cs with
    | [] => .error "EOF while parsing a value"
    | 'n' :: rest =>
      match expectLit ['u', 'l', 'l'] rest with
      | some r => .ok (Json.null, r)
      | none => .error "expected ident"
    | 't' :: rest =>
      match expectLit ['r', 'u', 'e'] rest with
      | some r => .ok (Json.bool true, r)
      | none => .error "expected ident"
    | 'f' :: rest =>
      match expectLit ['a', 'l', 's', 'e'] rest with
      | some r => .ok (Json.bool false, r)
      | none => .error "expected ident"
    | '"' :: rest =>
      match parseStringRest rest with
      | .ok (cs2, r) => .ok (Json.str (String.mk cs2), r)
      | .error e => .error e
    | '[' :: rest =>
      match skipWs rest with
      | ']' :: r2 => .ok (Json.arr [], r2)
      | other => parseArrayRest fuel other []
    | '\x7b' :: rest =>
      match skipWs rest with
      | '\x7d' :: r2 => .ok (Json.obj [], r2)
      | other => parseObjRest fuel other []
    | c :: rest =>
      if c = '-' || isDigitCh c then parseNumber (c :: rest)
      else .error "expected value"

def parseArrayRest : Nat → List Char → List Json → Except String (Json × List Char)
  | 0, _, _ => .error "recursion limit exceeded"
  | fuel + 1, cs, acc =>
    match parseValue fuel cs with
    | .error e => .error e
    | .ok (v, r) =>
      match skipWs r with
      | ',' :: r2 => parseArrayRest fuel r2 (acc ++ [v])
      | ']' :: r2 => .ok (Json.arr (acc ++ [v]), r2)
      | _ => .error "expected comma or end of list"

def parseObjRest : Nat → List Char → List (String × Json) → Except String (Json × List Char)
  | 0, _, _ => .error "recursion limit exceeded"
  | fuel + 1, cs, acc =>
    match skipWs cs with
    | '"' :: r =>
      match parseStringRest r with
      | .error e => .error e
      | .ok (kcs, r2) =>
        match skipWs r2 with
        | ':' :: r3 =>
          match parseValue fuel r3 with
          | .error e => .error e
          | .ok (v, r4) =>
            match skipWs r4 with
            | ',' :: r5 => parseObjRest fuel r5 (insertSorted (String.mk kcs) v acc)
            | '\x7d' :: r5 => .ok (Json.obj (insertSorted (String.mk kcs) v acc), r5)
            | _ => .error "expected comma or end of object"
        | _ => .error "expected colon"
    | _ => .error "key must be a string"

end

/-- Parse a complete JSON document: one value, then only whitespace. -/
def parseJsonText (s : String) : Except String Json :=
  match parseValue (2 * s.length + 4) s.data with
  | .error e => .error e
  | .ok (v, rest) =>
    match skipWs rest with
    | [] => .ok v
    | _ => .error "trailing characters"

/-! ## UTF-8 (bytes of bodies and header values) -/

def isContByte (b : Nat) : Bool := 0x80 ≤ b && b ≤ 0xBF

/-- Classification of a UTF-8 lead byte: `some (k, sc, lo, hi)` means
`k` continuation bytes follow the first one handled by the caller, the
scalar value accumulated so far is `sc`, and the next byte must lie in
`[lo, hi]` (the narrowed second-byte ranges reject overlong encodings
and surrogates); `k = 0` with an ASCII byte emits directly. -/
def leadInfo (b : Nat) : Option (Nat × Nat × Nat × Nat) :=
  if b < 0x80 then some (0, b, 0, 0)
  else if 0xC2 ≤ b && b ≤ 0xDF then some (1, b - 0xC0, 0x80, 0xBF)
  else if b = 0xE0 then some (2, 0, 0xA0, 0xBF)
  else if b = 0xED then some (2, 0xD, 0x80, 0x9F)
  else if 0xE0 ≤ b && b ≤ 0xEF then some (2, b - 0xE0, 0x80, 0xBF)
  else if b = 0xF0 then some (3, 0, 0x90, 0xBF)
  else if b = 0xF4 then some (3, 4, 0x80, 0x8F)
  else if 0xF0 ≤ b && b ≤ 0xF4 then some (3, b - 0xF0, 0x80, 0xBF)
  else none

/-- Strict UTF-8 decoding of a byte list (overlongs and surrogates
rejected), one byte per step.  `acc` holds the decoded characters
reversed; `st = some (k, sc, lo, hi)` means the next byte is a
continuation byte in `[lo, hi]`, with `k` more to follow. -/
def utf8Run (acc : List Char) (st : Option (Nat × Nat × Nat × Nat)) :
    List Nat → Option (List Char)
  | [] =>
    match st with
    | none => some acc.reverse
    | some _ => none
  | b :: rest =>
    match st with
    | none =>
      match leadInfo b with
      | none => none
      | some (0, sc, _, _) => utf8Run (Char.ofNat sc :: acc) none rest
      | some (k + 1, sc, lo, hi) => utf8Run acc (some (k, sc, lo, hi)) rest
    | some (k, sc, lo, hi) =>
      if lo ≤ b && b ≤ hi then
        match k with
        | 0 => utf8Run (Char.ofNat (sc * 64 + (b - 0x80)) :: acc) none rest
        | k2 + 1 => utf8Run acc (some (k2, sc * 64 + (b - 0x80), 0x80, 0xBF)) rest
      else none

def decodeUtf8 (bs : List Nat) : Option String :=
  match utf8Run [] none bs with
  | some cs => some (String.mk cs)
  | none => none

/-- UTF-8 encoding of one character. -/
def charUtf8 (c : Char) : List Nat :=
  let n := c.toNat
  if n < 0x80 then [n]
  else if n < 0x800 then [0xC0 + n / 64, 0x80 + n % 64]
  else if n < 0x10000 then [0xE0 + n / 4096, 0x80 + (n / 64) % 64, 0x80 + n % 64]
  else [0xF0 + n / 262144, 0x80 + (n / 4096) % 64, 0x80 + (n / 64) % 64, 0x80 + n % 64]

def strBytesAux (acc : List Nat) : List Char → List Nat
  | [] => acc.reverse
  | c :: cs => strBytesAux (List.reverseAux (charUtf8 c) acc) cs

def strToBytes (s : String) : List Nat := strBytesAux [] s.data

/-- Model of `serde_json::from_slice::<Value>`: the body bytes must be valid
UTF-8 text containing exactly one JSON document. -/
def from_slice (bs : List Nat) : Except String Json :=
  match decodeUtf8 bs with
  | none => .error "invalid UTF-8"
  | some s => parseJsonText s

/-! ## HTTP request model and GitHub header extraction (`src/github.rs`) -/

/-- Raw bytes of one HTTP header value (`hyper::header::HeaderValue`). -/
abbrev HeaderBytes := List Nat

/-- Model of `HeaderValue::to_str` succeeds exactly on values made of visible
ASCII characters (0x20–0x7E) or horizontal tab, per the `http` crate. -/
def isVisibleAscii (b : Nat) : Bool := (32 ≤ b && b ≤ 126) || b == 9

def asciiToStr (bs : HeaderBytes) : String := String.mk (bs.map Char.ofNat)

/-- Model of `HeaderValue::to_str().ok()`. -/
def headerToStr (bs : HeaderBytes) : Option String :=
  if bs.all isVisibleAscii then some (asciiToStr bs) else none

/-- Model of `str_default` from `src/github.rs`: the header value's string, or
the empty string when the conversion fails. -/
def str_default (head : HeaderBytes) : String := (headerToStr head).getD ""

/-- Model of `to_string_opt` from `src/github.rs`. -/
def to_string_opt (e : HeaderBytes) : Option String := headerToStr e

/-- Model of `hyper::http::request::Parts`: the request line and headers. -/
structure Parts where
  path : String
  headers : List (String × HeaderBytes)

/-- Model of `HeaderMap::get`: first value stored under the name. -/
def getHeader (parts : Parts) (name : String) : Option HeaderBytes :=
  (parts.headers.find? (fun kv => kv.fst == name)).map Prod.snd

/-- Model of `GithubHeader` from `src/github.rs`. -/
structure GithubHeader where
  x_github_hook_id : String
  x_github_event : String
  x_github_delivery : String
  x_hub_signature : Option String
  x_hub_signature_256 : Option String
  user_agent : String
  x_github_hook_installation_target_type : String
  x_github_hook_installation_target_id : String

/-- Model of `GithubHeader::from_request_parts` from `src/github.rs`. -/
def GithubHeader.from_request_parts (parts : Parts) : GithubHeader where
  x_github_hook_id := (getHeader parts "X-GitHub-Hook-ID").elim "" str_default
  x_github_event := (getHeader parts "X-GitHub-Event").elim "" str_default
  x_github_delivery := (getHeader parts "X-GitHub-Delivery").elim "" str_default
  x_hub_signature := (getHeader parts "X-Hub-Signature").bind to_string_opt
  x_hub_signature_256 := (getHeader parts "X-Hub-Signature-256").bind to_string_opt
  user_agent := (getHeader parts "User-Agent").elim "" str_default
  x_github_hook_installation_target_type :=
    (getHeader parts "X-GitHub-Hook-Installation-Target-Type").elim "" str_default
  x_github_hook_installation_target_id :=
    (getHeader parts "X-GitHub-Hook-Installation-Target-ID").elim "" str_default

/-! ## Typed push-event deserialization (`src/github.rs`)

The `#[derive(Deserialize)]` structs.  `handle_push_event` itself
deserializes only to `serde_json::Value`; these typed decoders embed
the derived `Deserialize` impls, which the handler never invokes. -/

def Json.asString : Json → Except String String
  | .str s => .ok s
  | _ => .error "invalid type: expected a string"

def Json.asBool : Json → Except String Bool
  | .bool b => .ok b
  | _ => .error "invalid type: expected a boolean"

def Json.asStringList : Json → Except String (List String)
  | .arr xs => xs.mapM Json.asString
  | _ => .error "invalid type: expected a sequence"

def findField (kvs : List (String × Json)) (k : String) : Option Json :=
  (kvs.find? (fun kv => kv.fst == k)).map Prod.snd

/-- A required struct field: missing or ill-typed is an error (serde
derives no default for these fields). -/
def reqField (kvs : List (String × Json)) (k : String)
    (dec : Json → Except String α) : Except String α :=
  match findField kvs k with
  | some v => dec v
  | none => .error ("missing field " ++ k)

/-- An `Option<T>` struct field: absent or `null` is `None`. -/
def optField (kvs : List (String × Json)) (k : String)
    (dec : Json → Except String α) : Except String (Option α) :=
  match findField kvs k with
  | none => .ok none
  | some .null => .ok none
  | some v =>
    match dec v with
    | .ok a => .ok (some a)
    | .error e => .error e

/-- Model of `User` from `src/github.rs`. -/
structure User where
  date : String
  email : Option String
  name : String
  username : String

def User.fromJson (j : Json) : Except String User :=
  match j with
  | .obj kvs => do
    let date ← reqField kvs "date" Json.asString
    let email ← optField kvs "email" Json.asString
    let name ← reqField kvs "name" Json.asString
    let username ← reqField kvs "username" Json.asString
    .ok ⟨date, email, name, username⟩
  | _ => .error "invalid type: expected a map"

/-- Model of `Commits` from `src/github.rs`. -/
structure Commits where
  added : List String
  author : User
  committer : User
  distinct : Bool
  id : String
  message : String
  modified : Option (List String)
  removed : Option (List String)
  timestamp : String
  tree_id : String
  url : String

def Commits.fromJson (j : Json) : Except String Commits :=
  match j with
  | .obj kvs => do
    let added ← reqField kvs "added" Json.asStringList
    let author ← reqField kvs "author" User.fromJson
    let committer ← reqField kvs "committer" User.fromJson
    let distinct ← reqField kvs "distinct" Json.asBool
    let id ← reqField kvs "id" Json.asString
    let message ← reqField kvs "message" Json.asString
    let modified ← optField kvs "modified" Json.asStringList
    let removed ← optField kvs "removed" Json.asStringList
    let timestamp ← reqField kvs "timestamp" Json.asString
    let tree_id ← reqField kvs "tree_id" Json.asString
    let url ← reqField kvs "url" Json.asString
    .ok ⟨added, author, committer, distinct, id, message, modified, removed,
         timestamp, tree_id, url⟩
  | _ => .error "invalid type: expected a map"

/-- Model of `PushEvent` from `src/github.rs` (`ref` is renamed to `ref_`). -/
structure PushEvent where
  after : String
  base_ref : Option String
  before : String
  commits : List Commits
  compare : String
  created : Bool
  deleted : Bool
  enterprise : Option Json
  forced : Bool
  head_commit : Commits
  installation : Option Json
  organization : Option Json
  pusher : User
  ref_ : String
  repository : Json
  sender : Option Json

namespace PushEvent

/-- Model of `PushEvent::HEADER_EVENT`. -/
def HEADER_EVENT : String := "push"

def fromJson (j : Json) : Except String PushEvent :=
  match j with
  | .obj kvs => do
    let after ← reqField kvs "after" Json.asString
    let base_ref ← optField kvs "base_ref" Json.asString
    let before ← reqField kvs "before" Json.asString
    let commits ← reqField kvs "commits"
      (fun v => match v with
        | .arr xs => xs.mapM Commits.fromJson
        | _ => .error "invalid type: expected a sequence")
    let compare ← reqField kvs "compare" Json.asString
    let created ← reqField kvs "created" Json.asBool
    let deleted ← reqField kvs "deleted" Json.asBool
    let enterprise ← optField kvs "enterprise" Except.ok
    let forced ← reqField kvs "forced" Json.asBool
    let head_commit ← reqField kvs "head_commit" Commits.fromJson
    let installation ← optField kvs "installation" Except.ok
    let organization ← optField kvs "organization" Except.ok
    let pusher ← reqField kvs "pusher" User.fromJson
    let ref_ ← reqField kvs "ref" Json.asString
    let repository ← reqField kvs "repository" Except.ok
    let sender ← optField kvs "sender" Except.ok
    .ok ⟨after, base_ref, before, commits, compare, created, deleted, enterprise,
         forced, head_commit, installation, organization, pusher, ref_, repository, sender⟩
  | _ => .error "invalid type: expected a map"

end PushEvent

/-! ## The request handler (`src/main.rs`) -/

/-- The request body as hyper presents it: the advertised upper size
bound (`Body::size_hint().upper()`) and the result of collecting the
whole body (`req.collect().await`, whose I/O failure carries a
`Display` message). -/
structure BodyM where
  upper : Option Nat
  collectResult : Except String (List Nat)

structure RequestM where
  parts : Parts
  body : BodyM

/-- A response: status code and the bytes of its `Full<Bytes>` body,
given as the UTF-8 string they spell (every body the handler builds is
UTF-8 text; the empty body is `""`). -/
structure ResponseM where
  status : Nat
  body : String
deriving DecidableEq

/-- Model of `enum Error` from `src/main.rs`. -/
inductive Error where
  | internalError : Error
deriving DecidableEq

/-- Model of `impl IntoResponse for Error`: 500 with an empty body. -/
def Error.into_response : Error → ResponseM
  | .internalError => { status := 500, body := "" }

/-- Model of `impl IntoResponse for Value`: `Response::new` (status 200) holding
the compact serialization. -/
def Value.into_response (v : Json) : ResponseM :=
  { status := 200, body := renderCompact v }

/-- What one call of `handle` produces: the `Result` value together
with the lines printed to stdout and stderr, in order. -/
structure Outcome where
  result : Except Error ResponseM
  stdout : List String
  stderr : List String

/-- Model of `u64::MAX`, the value `unwrap_or` substitutes for a missing upper
bound in `handle_push_event`. -/
def MAX_U64 : Nat := 2 ^ 64 - 1

/-- Model of `handle_push_event` from `src/main.rs`.  The state holding the
connection pool is received but never used (`_state`), which the
polymorphic type makes evident.  Each `?` on a failing step logs the
error's display to stderr and yields `Error::InternalError` (the
blanket `impl<D: Display> From<D> for Error`). -/
def handle_push_event {σ : Type} (req : RequestM) (_state : σ) : Outcome :=
  if req.body.upper.getD MAX_U64 > 1024 * 64 then
    ⟨.ok { status := 413, body := "" }, [], []⟩
  else
    match req.body.collectResult with
    | .error e => ⟨.error .internalError, [], [e]⟩
    | .ok bodyBytes =>
      match from_slice bodyBytes with
      | .error e => ⟨.error .internalError, [], [e]⟩
      | .ok push_event =>
        ⟨.ok { status := 200, body := "" }, [to_string_pretty push_event], []⟩

/-- Rendering of `Option<String>` under `{:?}`. -/
def debugOptStr : Option String → String
  | none => "None"
  | some s => "Some(" ++ quoteJson s ++ ")"

/-- The struct-`Debug` rendering of the header record, as printed by
`println!("HEADER: {gh_header:?}")`. -/
def ghDebug (g : GithubHeader) : String :=
  "GithubHeader \x7b x_github_hook_id: " ++ quoteJson g.x_github_hook_id ++
  ", x_github_event: " ++ quoteJson g.x_github_event ++
  ", x_github_delivery: " ++ quoteJson g.x_github_delivery ++
  ", x_hub_signature: " ++ debugOptStr g.x_hub_signature ++
  ", x_hub_signature_256: " ++ debugOptStr g.x_hub_signature_256 ++
  ", user_agent: " ++ quoteJson g.user_agent ++
  ", x_github_hook_installation_target_type: " ++
    quoteJson g.x_github_hook_installation_target_type ++
  ", x_github_hook_installation_target_id: " ++
    quoteJson g.x_github_hook_installation_target_id ++ " \x7d"

/-- The `HEADER: …` line `handle` prints before dispatching. -/
def headerLine (parts : Parts) : String :=
  "HEADER: " ++ ghDebug (GithubHeader.from_request_parts parts)

/-- The health-check body `json!({ "status": "ok" })`. -/
def statusOkJson : Json := Json.obj [("status", Json.str "ok")]

/-- The 501 body `json!({ "error": "not supported", "event": x })`
(entries sorted, as in the `BTreeMap`-backed map the macro builds). -/
def unsupportedJson (x : String) : Json :=
  Json.obj [("error", Json.str "not supported"), ("event", Json.str x)]

def withHeaderLine (parts : Parts) (o : Outcome) : Outcome :=
  ⟨o.result, headerLine parts :: o.stdout, o.stderr⟩

/-- Model of `handle` from `src/main.rs`: health-check short-circuit, header
extraction with its debug print, then dispatch on the event name. -/
def handle {σ : Type} (req : RequestM) (state : σ) : Outcome :=
  if req.parts.path = "/status" ∨ req.parts.path = "/healthchekc" then
    ⟨.ok (Value.into_response statusOkJson), [], []⟩
  else if (GithubHeader.from_request_parts req.parts).x_github_event = "ping" then
    ⟨.ok { status := 200, body := "" }, [headerLine req.parts], []⟩
  else if (GithubHeader.from_request_parts req.parts).x_github_event
      = PushEvent.HEADER_EVENT then
    withHeaderLine req.parts (handle_push_event req state)
  else
    ⟨.ok { status := 501,
           body := renderCompact
             (unsupportedJson (GithubHeader.from_request_parts req.parts).x_github_event) },
      [headerLine req.parts], []⟩

/-- Model of `Handler::call`: `handle`'s error is turned into its response, so
the service-level result is always `Ok`. -/
structure CallOutcome where
  result : Except String ResponseM
  stdout : List String
  stderr : List String

def Handler.call {σ : Type} (req : RequestM) (state : σ) : CallOutcome :=
  match handle req state with
  | ⟨.ok res, out, err⟩ => ⟨.ok res, out, err⟩
  | ⟨.error e, out, err⟩ => ⟨.ok e.into_response, out, err⟩

/-! ## Concrete inputs used by witnesses and counterexamples -/

/-- A minimal git identity carrying only the required `User` fields. -/
def minUser : Json := Json.obj
  [("date", Json.str "2024-01-01T00:00:00Z"),
   ("name", Json.str "oc"),
   ("username", Json.str "oc")]

/-- A commit record carrying only the required `Commits` fields. -/
def minCommit : Json := Json.obj
  [("added", Json.arr [Json.str "a.txt"]),
   ("author", minUser),
   ("committer", minUser),
   ("distinct", Json.bool true),
   ("id", Json.str "2f4a"),
   ("message", Json.str "init"),
   ("timestamp", Json.str "2024-01-01T00:00:00Z"),
   ("tree_id", Json.str "9c0d"),
   ("url", Json.str "u")]

/-- The minimal push payload of §8's round-trip property: only
after/before SHAs, ref, the created/deleted/forced flags, one commit,
head_commit and pusher. -/
def minPushPayload : Json := Json.obj
  [("after", Json.str "2f4a"),
   ("before", Json.str "0000"),
   ("commits", Json.arr [minCommit]),
   ("created", Json.bool true),
   ("deleted", Json.bool false),
   ("forced", Json.bool false),
   ("head_commit", minCommit),
   ("pusher", minUser),
   ("ref", Json.str "refs/heads/main")]

/-- The bytes of the minimal payload as a request body. -/
def minPushBytes : List Nat := strToBytes (renderCompact minPushPayload)

/-- The bytes of `"push"`, as the event-name header value. -/
def pushHeaderBytes : HeaderBytes := [112, 117, 115, 104]

/-- A request line carrying `"push"` in the event-name header. -/
def pushHeaderParts : Parts := ⟨"/", [("X-GitHub-Event", pushHeaderBytes)]⟩

/-- A request line carrying `"ping"` in the event-name header. -/
def pingHeaderParts : Parts := ⟨"/", [("X-GitHub-Event", [112, 105, 110, 103])]⟩

/-- A request line with no event-name header at all. -/
def emptyHeaderParts : Parts := ⟨"/", []⟩

/-- A push request advertising a small bound whose body is `{}`: valid
JSON with every required push field missing. -/
def emptyObjPushReq : RequestM := ⟨pushHeaderParts, ⟨some 2, .ok [123, 125]⟩⟩

/-- A push request that advertises no upper bound on its body length. -/
def noBoundPushReq : RequestM := ⟨pushHeaderParts, ⟨none, .ok [123, 125]⟩⟩

/-- A push request whose body read fails with an I/O error. -/
def ioErrorPushReq : RequestM := ⟨pushHeaderParts, ⟨some 2, .error "connection reset"⟩⟩

/-- A push request whose body is not valid JSON. -/
def notJsonPushReq : RequestM := ⟨pushHeaderParts, ⟨some 8, .ok (strToBytes "not json")⟩⟩

/-- A request whose event-name header value is the two UTF-8 bytes of
`é`: valid UTF-8, but not visible ASCII. -/
def utf8HeaderParts : Parts := ⟨"/", [("X-GitHub-Event", [195, 169])]⟩

/-! ## Specification predicates for header extraction

Stated through `decodeUtf8`, independently of the `headerToStr` path
the extraction itself takes. -/

/-- How one of the six non-signature header fields must relate to the
raw header value: the decoded text when the value is visible ASCII,
the empty string when it is absent or not visible ASCII. -/
def strFieldSpec (o : Option HeaderBytes) (field : String) : Prop :=
  (o = none → field = "") ∧
  ∀ v, o = some v →
    (v.all isVisibleAscii = true → field = (decodeUtf8 v).getD "") ∧
    (v.all isVisibleAscii = false → field = "")

/-- How the two signature fields must relate to the raw header value:
`some` of the decoded text when the value is visible ASCII, `none`
when it is absent or not visible ASCII. -/
def sigFieldSpec (o : Option HeaderBytes) (field : Option String) : Prop :=
  (o = none → field = none) ∧
  ∀ v, o = some v →
    (v.all isVisibleAscii = true → field = some ((decodeUtf8 v).getD "")) ∧
    (v.all isVisibleAscii = false → field = none)

/-! ## Helper lemmas -/

theorem visible_lt_128 {b : Nat} (h : isVisibleAscii b = true) : b < 128 := by
  simp only [isVisibleAscii, Bool.or_eq_true, Bool.and_eq_true, decide_eq_true_eq,
    beq_iff_eq] at h
  omega

theorem utf8Run_visible (bs : List Nat) :
    ∀ acc : List Char, bs.all isVisibleAscii = true →
      utf8Run acc none bs = some (acc.reverse ++ bs.map Char.ofNat) := by
  induction bs with
  | nil =>
    intro acc _
    rw [List.map_nil, List.append_nil]
    rfl
  | cons b rest ih =>
    intro acc h
    rw [List.all_cons, Bool.and_eq_true] at h
    have hb : b < 128 := visible_lt_128 h.1
    have hlead : leadInfo b = some (0, b, 0, 0) := by
      unfold leadInfo
      rw [if_pos hb]
    show (match leadInfo b with
      | none => none
      | some (0, sc, _, _) => utf8Run (Char.ofNat sc :: acc) none rest
      | some (k + 1, sc, lo, hi) => utf8Run acc (some (k, sc, lo, hi)) rest) = _
    rw [hlead]
    show utf8Run (Char.ofNat b :: acc) none rest = _
    rw [ih (Char.ofNat b :: acc) h.2]
    rw [List.reverse_cons, List.map_cons, List.append_assoc, List.singleton_append]

theorem decodeUtf8_visible (bs : List Nat) (h : bs.all isVisibleAscii = true) :
    decodeUtf8 bs = some (asciiToStr bs) := by
  unfold decodeUtf8
  rw [utf8Run_visible bs [] h]
  rfl

theorem headerToStr_visible (v : HeaderBytes) (hv : v.all isVisibleAscii = true) :
    headerToStr v = some (asciiToStr v) := by
  unfold headerToStr
  rw [hv]
  rfl

theorem headerToStr_invisible (v : HeaderBytes) (hv : v.all isVisibleAscii = false) :
    headerToStr v = none := by
  unfold headerToStr
  rw [hv]
  rfl

theorem strFieldSpec_str_default (o : Option HeaderBytes) :
    strFieldSpec o (o.elim "" str_default) := by
  constructor
  · rintro rfl; rfl
  · rintro v rfl
    constructor
    · intro hv
      rw [decodeUtf8_visible v hv]
      show str_default v = _
      unfold str_default
      rw [headerToStr_visible v hv]
    · intro hv
      show str_default v = ""
      unfold str_default
      rw [headerToStr_invisible v hv]
      rfl

theorem sigFieldSpec_to_string_opt (o : Option HeaderBytes) :
    sigFieldSpec o (o.bind to_string_opt) := by
  constructor
  · rintro rfl; rfl
  · rintro v rfl
    constructor
    · intro hv
      rw [decodeUtf8_visible v hv]
      show to_string_opt v = _
      unfold to_string_opt
      rw [headerToStr_visible v hv]
      rfl
    · intro hv
      show to_string_opt v = none
      exact headerToStr_invisible v hv

theorem handle_health {σ : Type} (st : σ) (req : RequestM)
    (hpath : req.parts.path = "/status" ∨ req.parts.path = "/healthchekc") :
    handle req st = ⟨.ok ⟨200, "\x7b\"status\":\"ok\"\x7d"⟩, [], []⟩ := by
  unfold handle
  rw [if_pos hpath]
  rfl

theorem handle_ping {σ : Type} (st : σ) (req : RequestM)
    (h1 : req.parts.path ≠ "/status") (h2 : req.parts.path ≠ "/healthchekc")
    (hev : (GithubHeader.from_request_parts req.parts).x_github_event = "ping") :
    handle req st = ⟨.ok ⟨200, ""⟩, [headerLine req.parts], []⟩ := by
  unfold handle
  rw [if_neg (not_or.mpr ⟨h1, h2⟩), hev, if_pos rfl]

theorem handle_push_branch {σ : Type} (st : σ) (req : RequestM)
    (h1 : req.parts.path ≠ "/status") (h2 : req.parts.path ≠ "/healthchekc")
    (hev : (GithubHeader.from_request_parts req.parts).x_github_event = "push") :
    handle req st = withHeaderLine req.parts (handle_push_event req st) := by
  unfold handle PushEvent.HEADER_EVENT
  rw [if_neg (not_or.mpr ⟨h1, h2⟩), hev]
  rw [if_neg (by decide), if_pos rfl]

theorem handle_unsupported {σ : Type} (st : σ) (req : RequestM)
    (h1 : req.parts.path ≠ "/status") (h2 : req.parts.path ≠ "/healthchekc")
    (hping : (GithubHeader.from_request_parts req.parts).x_github_event ≠ "ping")
    (hpush : (GithubHeader.from_request_parts req.parts).x_github_event ≠ "push") :
    handle req st =
      ⟨.ok ⟨501, renderCompact
          (unsupportedJson (GithubHeader.from_request_parts req.parts).x_github_event)⟩,
        [headerLine req.parts], []⟩ := by
  unfold handle PushEvent.HEADER_EVENT
  rw [if_neg (not_or.mpr ⟨h1, h2⟩), if_neg hping, if_neg hpush]

theorem hpe_oversized {σ : Type} (st : σ) (req : RequestM) (n : Nat)
    (hupper : req.body.upper = some n) (hn : n > 65536) :
    handle_push_event req st = ⟨.ok ⟨413, ""⟩, [], []⟩ := by
  unfold handle_push_event
  rw [hupper, Option.getD_some, if_pos (show n > 1024 * 64 by omega)]

theorem hpe_no_bound {σ : Type} (st : σ) (req : RequestM)
    (hupper : req.body.upper = none) :
    handle_push_event req st = ⟨.ok ⟨413, ""⟩, [], []⟩ := by
  unfold handle_push_event
  rw [hupper, Option.getD_none, if_pos (show MAX_U64 > 1024 * 64 by decide)]

theorem hpe_collect_error {σ : Type} (st : σ) (req : RequestM) (n : Nat) (e : String)
    (hupper : req.body.upper = some n) (hn : n ≤ 65536)
    (hc : req.body.collectResult = .error e) :
    handle_push_event req st = ⟨.error .internalError, [], [e]⟩ := by
  unfold handle_push_event
  rw [hupper, Option.getD_some, if_neg (show ¬n > 1024 * 64 by omega), hc]

theorem hpe_parse_error {σ : Type} (st : σ) (req : RequestM) (n : Nat)
    (bs : List Nat) (e : String)
    (hupper : req.body.upper = some n) (hn : n ≤ 65536)
    (hc : req.body.collectResult = .ok bs) (hp : from_slice bs = .error e) :
    handle_push_event req st = ⟨.error .internalError, [], [e]⟩ := by
  unfold handle_push_event
  rw [hupper, Option.getD_some, if_neg (show ¬n > 1024 * 64 by omega), hc]
  show (match from_slice bs with
    | .error e => (⟨.error .internalError, [], [e]⟩ : Outcome)
    | .ok push_event => ⟨.ok ⟨200, ""⟩, [to_string_pretty push_event], []⟩) = _
  rw [hp]

theorem hpe_parse_ok {σ : Type} (st : σ) (req : RequestM) (n : Nat)
    (bs : List Nat) (v : Json)
    (hupper : req.body.upper = some n) (hn : n ≤ 65536)
    (hc : req.body.collectResult = .ok bs) (hp : from_slice bs = .ok v) :
    handle_push_event req st = ⟨.ok ⟨200, ""⟩, [to_string_pretty v], []⟩ := by
  unfold handle_push_event
  rw [hupper, Option.getD_some, if_neg (show ¬n > 1024 * 64 by omega), hc]
  show (match from_slice bs with
    | .error e => (⟨.error .internalError, [], [e]⟩ : Outcome)
    | .ok push_event => ⟨.ok ⟨200, ""⟩, [to_string_pretty push_event], []⟩) = _
  rw [hp]

theorem handle_error_stderr {σ : Type} (st : σ) (req : RequestM)
    (h : (handle req st).result = .error .internalError) :
    (handle req st).stderr ≠ [] := by
  by_cases hp : req.parts.path = "/status" ∨ req.parts.path = "/healthchekc"
  · rw [handle_health st req hp] at h
    exact absurd h (by simp)
  · have h12 := not_or.mp hp
    by_cases hping : (GithubHeader.from_request_parts req.parts).x_github_event = "ping"
    · rw [handle_ping st req h12.1 h12.2 hping] at h
      exact absurd h (by simp)
    · by_cases hpush : (GithubHeader.from_request_parts req.parts).x_github_event = "push"
      · rw [handle_push_branch st req h12.1 h12.2 hpush] at h ⊢
        rcases hu : req.body.upper with _ | n
        · rw [hpe_no_bound st req hu] at h
          exact absurd h (by simp [withHeaderLine])
        · by_cases hn : n > 65536
          · rw [hpe_oversized st req n hu hn] at h
            exact absurd h (by simp [withHeaderLine])
          · cases hc : req.body.collectResult with
            | error e =>
              rw [hpe_collect_error st req n e hu (by omega) hc]
              simp [withHeaderLine]
            | ok bs =>
              cases hs : from_slice bs with
              | error e =>
                rw [hpe_parse_error st req n bs e hu (by omega) hc hs]
                simp [withHeaderLine]
              | ok v =>
                rw [hpe_parse_ok st req n bs v hu (by omega) hc hs] at h
                exact absurd h (by simp [withHeaderLine])
      · rw [handle_unsupported st req h12.1 h12.2 hping hpush] at h
        exact absurd h (by simp)

/-! ## Claims -/

/-- C5: for every request whose path equals `/status` or `/healthchekc`,
regardless of method, headers or body, `handle` answers 200 with body
exactly `{"status":"ok"}`, extracting no GitHub headers, printing
nothing, and never touching the body. -/
theorem health_check_always_ok {σ : Type} (st : σ) (path : String)
    (headers : List (String × HeaderBytes)) (body : BodyM)
    (hpath : path = "/status" ∨ path = "/healthchekc") :
    handle ⟨⟨path, headers⟩, body⟩ st
      = ⟨.ok ⟨200, "\x7b\"status\":\"ok\"\x7d"⟩, [], []⟩ :=
  handle_health st ⟨⟨path, headers⟩, body⟩ hpath

/-- Witness for C5 at the concrete path `/status`. -/
theorem health_check_always_ok_witness :
    handle ⟨⟨"/status", [("X-GitHub-Event", pushHeaderBytes)]⟩, ⟨none, .error "boom"⟩⟩ ()
      = ⟨.ok ⟨200, "\x7b\"status\":\"ok\"\x7d"⟩, [], []⟩ :=
  health_check_always_ok () "/status" [("X-GitHub-Event", pushHeaderBytes)]
    ⟨none, .error "boom"⟩ (Or.inl rfl)

/-- C6: a request off the health-check paths whose extracted event name
is exactly `ping` gets 200 with an empty body, and the response does
not depend on the request body, which is never read. -/
theorem ping_ok_empty_body {σ : Type} (st : σ) (parts : Parts) (body : BodyM)
    (h1 : parts.path ≠ "/status") (h2 : parts.path ≠ "/healthchekc")
    (hev : (GithubHeader.from_request_parts parts).x_github_event = "ping") :
    handle ⟨parts, body⟩ st = ⟨.ok ⟨200, ""⟩, [headerLine parts], []⟩ :=
  handle_ping st ⟨parts, body⟩ h1 h2 hev

/-- Witness for C6 at a concrete ping request. -/
theorem ping_ok_empty_body_witness :
    handle ⟨pingHeaderParts, ⟨none, .error "boom"⟩⟩ ()
      = ⟨.ok ⟨200, ""⟩, [headerLine pingHeaderParts], []⟩ :=
  ping_ok_empty_body () pingHeaderParts ⟨none, .error "boom"⟩
    (by decide) (by decide) rfl

/-- C4: a request off the health-check paths whose extracted event name
is neither `ping` nor `push` (a missing header extracts as the empty
string) gets 501 with the compact JSON body
`{"error":"not supported","event":X}` carrying that event name. -/
theorem unsupported_event_501 {σ : Type} (st : σ) (parts : Parts) (body : BodyM)
    (h1 : parts.path ≠ "/status") (h2 : parts.path ≠ "/healthchekc")
    (hping : (GithubHeader.from_request_parts parts).x_github_event ≠ "ping")
    (hpush : (GithubHeader.from_request_parts parts).x_github_event ≠ "push") :
    handle ⟨parts, body⟩ st =
      ⟨.ok ⟨501, renderCompact
          (unsupportedJson (GithubHeader.from_request_parts parts).x_github_event)⟩,
        [headerLine parts], []⟩ :=
  handle_unsupported st ⟨parts, body⟩ h1 h2 hping hpush

/-- Witness for C4: with no event-name header the extracted name is the
empty string and the body spells the literal 501 JSON. -/
theorem unsupported_event_501_witness :
    handle ⟨emptyHeaderParts, ⟨some 0, .ok []⟩⟩ ()
      = ⟨.ok ⟨501, "\x7b\"error\":\"not supported\",\"event\":\"\"\x7d"⟩,
          [headerLine emptyHeaderParts], []⟩ :=
  unsupported_event_501 () emptyHeaderParts ⟨some 0, .ok []⟩
    (by decide) (by decide) (by decide) (by decide)

/-- C3: a push request advertising an upper body bound above 65536
bytes is answered 413 with an empty body by the pre-read guard, no
matter what the body holds (it is never consumed); a bound of exactly
65536 never produces 413. -/
theorem oversized_push_rejected_413 {σ : Type} (st : σ) (parts : Parts)
    (h1 : parts.path ≠ "/status") (h2 : parts.path ≠ "/healthchekc")
    (hev : (GithubHeader.from_request_parts parts).x_github_event = "push") :
    (∀ (n : Nat) (data : Except String (List Nat)), n > 65536 →
      handle ⟨parts, ⟨some n, data⟩⟩ st = ⟨.ok ⟨413, ""⟩, [headerLine parts], []⟩)
    ∧ (∀ (data : Except String (List Nat)) (r : ResponseM),
        (handle ⟨parts, ⟨some 65536, data⟩⟩ st).result = .ok r → r.status ≠ 413) := by
  constructor
  · intro n data hn
    rw [handle_push_branch st ⟨parts, ⟨some n, data⟩⟩ h1 h2 hev,
      hpe_oversized st ⟨parts, ⟨some n, data⟩⟩ n rfl hn]
    rfl
  · intro data r hr
    rw [handle_push_branch st ⟨parts, ⟨some 65536, data⟩⟩ h1 h2 hev] at hr
    cases hc : data with
    | error e =>
      rw [hpe_collect_error st ⟨parts, ⟨some 65536, data⟩⟩ 65536 e rfl (by omega)
        (by rw [hc])] at hr
      exact absurd hr (by simp [withHeaderLine])
    | ok bs =>
      cases hs : from_slice bs with
      | error e =>
        rw [hpe_parse_error st ⟨parts, ⟨some 65536, data⟩⟩ 65536 bs e rfl (by omega)
          (by rw [hc]) hs] at hr
        exact absurd hr (by simp [withHeaderLine])
      | ok v =>
        rw [hpe_parse_ok st ⟨parts, ⟨some 65536, data⟩⟩ 65536 bs v rfl (by omega)
          (by rw [hc]) hs] at hr
        simp [withHeaderLine] at hr
        rw [← hr]
        decide

/-- Witness for C3 at a concrete bound of 70000. -/
theorem oversized_push_rejected_413_witness :
    handle ⟨pushHeaderParts, ⟨some 70000, .ok [123, 125]⟩⟩ ()
      = ⟨.ok ⟨413, ""⟩, [headerLine pushHeaderParts], []⟩ :=
  (oversized_push_rejected_413 () pushHeaderParts (by decide) (by decide) rfl).1
    70000 (.ok [123, 125]) (by omega)

/-- C2 counterexample: a push request advertising no upper bound IS
rejected by the guard — `unwrap_or(u64::MAX)` makes the missing bound
maximal — contradicting the claim that the limit goes unenforced and
the body is read. -/
theorem no_bound_rejected_counterexample :
    noBoundPushReq.body.upper = none
    ∧ (handle noBoundPushReq ()).result = .ok ⟨413, ""⟩ := ⟨rfl, rfl⟩

/-- C2 as amended: when no upper bound is advertised, the substituted
`u64::MAX` exceeds the 64 KiB limit, so the request is rejected 413
with an empty body and the body is never read. -/
theorem missing_bound_rejected_413 {σ : Type} (st : σ) (parts : Parts)
    (data : Except String (List Nat))
    (h1 : parts.path ≠ "/status") (h2 : parts.path ≠ "/healthchekc")
    (hev : (GithubHeader.from_request_parts parts).x_github_event = "push") :
    handle ⟨parts, ⟨none, data⟩⟩ st = ⟨.ok ⟨413, ""⟩, [headerLine parts], []⟩ := by
  rw [handle_push_branch st ⟨parts, ⟨none, data⟩⟩ h1 h2 hev,
    hpe_no_bound st ⟨parts, ⟨none, data⟩⟩ rfl]
  rfl

/-- Witness for the amended C2 at a concrete request. -/
theorem missing_bound_rejected_413_witness :
    handle noBoundPushReq () = ⟨.ok ⟨413, ""⟩, [headerLine pushHeaderParts], []⟩ :=
  missing_bound_rejected_413 () pushHeaderParts (.ok [123, 125])
    (by decide) (by decide) rfl

/-- C1 counterexample: the body `{}` is valid JSON missing every
required push field, yet the handler answers 200, not 500 — the code
deserializes into `serde_json::Value`, never through the typed
`PushEvent` decoder, which would reject this body. -/
theorem missing_fields_accepted_counterexample :
    from_slice [123, 125] = .ok (Json.obj [])
    ∧ (PushEvent.fromJson (Json.obj [])).isOk = false
    ∧ (Handler.call emptyObjPushReq ()).result = .ok ⟨200, ""⟩ := ⟨rfl, rfl, rfl⟩

/-- C1 as amended: for a push request under the size guard, the
response is 500 (empty body, error logged to stderr) exactly when the
body is not valid JSON; any valid JSON body — required push fields
present or not — is accepted with 200. -/
theorem push_parse_dichotomy {σ : Type} (st : σ) (parts : Parts) (n : Nat) (bs : List Nat)
    (h1 : parts.path ≠ "/status") (h2 : parts.path ≠ "/healthchekc")
    (hev : (GithubHeader.from_request_parts parts).x_github_event = "push")
    (hn : n ≤ 65536) :
    (∀ e, from_slice bs = .error e →
      (Handler.call ⟨parts, ⟨some n, .ok bs⟩⟩ st).result = .ok ⟨500, ""⟩
      ∧ (handle ⟨parts, ⟨some n, .ok bs⟩⟩ st).stderr = [e])
    ∧ (∀ v, from_slice bs = .ok v →
      (Handler.call ⟨parts, ⟨some n, .ok bs⟩⟩ st).result = .ok ⟨200, ""⟩) := by
  constructor
  · intro e hp
    have hh := handle_push_branch st ⟨parts, ⟨some n, .ok bs⟩⟩ h1 h2 hev
    rw [hpe_parse_error st ⟨parts, ⟨some n, .ok bs⟩⟩ n bs e rfl hn rfl hp] at hh
    constructor
    · unfold Handler.call
      rw [hh]
      rfl
    · rw [hh]
      rfl
  · intro v hp
    have hh := handle_push_branch st ⟨parts, ⟨some n, .ok bs⟩⟩ h1 h2 hev
    rw [hpe_parse_ok st ⟨parts, ⟨some n, .ok bs⟩⟩ n bs v rfl hn rfl hp] at hh
    unfold Handler.call
    rw [hh]
    rfl

/-- Witness for the amended C1 at a request whose body is not JSON. -/
theorem push_parse_dichotomy_witness :
    (Handler.call notJsonPushReq ()).result = .ok ⟨500, ""⟩
    ∧ (handle notJsonPushReq ()).stderr = ["expected ident"] :=
  (push_parse_dichotomy () pushHeaderParts 8 (strToBytes "not json")
    (by decide) (by decide) rfl (by omega)).1 "expected ident" rfl

/-- C7: a push request under the size guard whose body parses as JSON
is answered 200 with an empty body; the push handler's only effect is
printing the pretty rendering of the parsed payload to stdout — the
outcome is a closed value, the same for every state, so the connection
pool is never touched and nothing is stored or forwarded. -/
theorem push_success_logs_pretty_payload {σ : Type} (st : σ) (parts : Parts)
    (n : Nat) (bs : List Nat) (v : Json)
    (hn : n ≤ 65536) (hp : from_slice bs = .ok v) :
    handle_push_event ⟨parts, ⟨some n, .ok bs⟩⟩ st
      = ⟨.ok ⟨200, ""⟩, [to_string_pretty v], []⟩ :=
  hpe_parse_ok st ⟨parts, ⟨some n, .ok bs⟩⟩ n bs v rfl hn rfl hp

/-- Witness for C7 at the body `{}`. -/
theorem push_success_logs_pretty_payload_witness :
    handle_push_event ⟨pushHeaderParts, ⟨some 2, .ok [123, 125]⟩⟩ ()
      = ⟨.ok ⟨200, ""⟩, [to_string_pretty (Json.obj [])], []⟩ :=
  push_success_logs_pretty_payload () pushHeaderParts 2 [123, 125] (Json.obj [])
    (by omega) rfl

/-- C8: the service-level call never surfaces an error; whenever
`handle` fails internally (body read or JSON parse), the call converts
it into a 500 response with an empty body — no error detail reaches
the caller — and the underlying message was already logged to stderr. -/
theorem downstream_errors_opaque_500 {σ : Type} (st : σ) (req : RequestM) :
    (∃ r, (Handler.call req st).result = .ok r)
    ∧ ((handle req st).result = .error .internalError →
        (Handler.call req st).result = .ok ⟨500, ""⟩
        ∧ (handle req st).stderr ≠ []) := by
  constructor
  · rcases h : handle req st with ⟨res, out, err⟩
    cases res with
    | ok r =>
      refine ⟨r, ?_⟩
      unfold Handler.call
      rw [h]
    | error e =>
      refine ⟨e.into_response, ?_⟩
      unfold Handler.call
      rw [h]
  · intro herr
    refine ⟨?_, handle_error_stderr st req herr⟩
    rcases h : handle req st with ⟨res, out, err⟩
    rw [h] at herr
    have hres : res = .error .internalError := herr
    subst hres
    unfold Handler.call
    rw [h]
    rfl

/-- Witness for C8 at a request whose body read fails. -/
theorem downstream_errors_opaque_500_witness :
    (Handler.call ioErrorPushReq ()).result = .ok ⟨500, ""⟩
    ∧ (handle ioErrorPushReq ()).stderr ≠ [] :=
  (downstream_errors_opaque_500 () ioErrorPushReq).2 rfl

set_option maxRecDepth 12000 in
/-- C9: the minimal push payload (only the required fields: SHAs, ref,
the three flags, one commit, head_commit, pusher) parses, the push
handler accepts it with 200 and prints its pretty rendering, and
parsing that printed line back yields exactly the payload again. -/
theorem minimal_push_roundtrip {σ : Type} (st : σ) (parts : Parts) :
    from_slice minPushBytes = .ok minPushPayload
    ∧ handle_push_event ⟨parts, ⟨some (minPushBytes.length), .ok minPushBytes⟩⟩ st
        = ⟨.ok ⟨200, ""⟩, [to_string_pretty minPushPayload], []⟩
    ∧ from_slice (strToBytes (to_string_pretty minPushPayload)) = .ok minPushPayload := by
  refine ⟨rfl, ?_, rfl⟩
  exact hpe_parse_ok st ⟨parts, ⟨some minPushBytes.length, .ok minPushBytes⟩⟩
    minPushBytes.length minPushBytes minPushPayload rfl (by decide) rfl rfl

/-- C10 counterexample: the two bytes `0xC3 0xA9` are valid UTF-8 (the
text `é`) and are a legal header value, yet the extracted event field
is the empty string, not `é` — the conversion demands visible ASCII,
not valid UTF-8. -/
theorem header_valid_utf8_dropped :
    decodeUtf8 [195, 169] = some "é"
    ∧ getHeader utf8HeaderParts "X-GitHub-Event" = some [195, 169]
    ∧ (GithubHeader.from_request_parts utf8HeaderParts).x_github_event = ""
    ∧ ("" : String) ≠ "é" := ⟨rfl, rfl, rfl, by decide⟩

/-- C10 as amended: header extraction is total; each of the six
non-signature fields equals the decoded header text when the value is
present and all visible ASCII (0x20–0x7E or tab), and the empty string
when absent or not; each signature field is `some` of the decoded text
when present and visible ASCII, and `none` otherwise. -/
theorem header_extraction_total_visible_ascii (parts : Parts) :
    strFieldSpec (getHeader parts "X-GitHub-Hook-ID")
        (GithubHeader.from_request_parts parts).x_github_hook_id
    ∧ strFieldSpec (getHeader parts "X-GitHub-Event")
        (GithubHeader.from_request_parts parts).x_github_event
    ∧ strFieldSpec (getHeader parts "X-GitHub-Delivery")
        (GithubHeader.from_request_parts parts).x_github_delivery
    ∧ sigFieldSpec (getHeader parts "X-Hub-Signature")
        (GithubHeader.from_request_parts parts).x_hub_signature
    ∧ sigFieldSpec (getHeader parts "X-Hub-Signature-256")
        (GithubHeader.from_request_parts parts).x_hub_signature_256
    ∧ strFieldSpec (getHeader parts "User-Agent")
        (GithubHeader.from_request_parts parts).user_agent
    ∧ strFieldSpec (getHeader parts "X-GitHub-Hook-Installation-Target-Type")
        (GithubHeader.from_request_parts parts).x_github_hook_installation_target_type
    ∧ strFieldSpec (getHeader parts "X-GitHub-Hook-Installation-Target-ID")
        (GithubHeader.from_request_parts parts).x_github_hook_installation_target_id :=
  ⟨strFieldSpec_str_default _, strFieldSpec_str_default _, strFieldSpec_str_default _,
   sigFieldSpec_to_string_opt _, sigFieldSpec_to_string_opt _,
   strFieldSpec_str_default _, strFieldSpec_str_default _, strFieldSpec_str_default _⟩

/-- Witness for the amended C10: the present, visible-ASCII event
header value decodes to the extracted field. -/
theorem header_extraction_total_visible_ascii_witness :
    (GithubHeader.from_request_parts pushHeaderParts).x_github_event
      = (decodeUtf8 pushHeaderBytes).getD "" :=
  (((header_extraction_total_visible_ascii pushHeaderParts).2.1).2
    pushHeaderBytes rfl).1 rfl
